import Mathlib

/-!
Verification of the lane-constructor, auction-bid CLI and builder-params
components of a proposer-builder-separation block-construction system.

The development shallowly embeds three source units:
* `blockbuster/lanes/constructor/lane.go` — the generic `LaneConstructor`
  lane: construction, validation, handler setters, `Match` and
  `CheckIgnoreList`;
* `x/builder/client/cli/tx.go` — the `auction-bid` transaction command;
* the builder protobuf schema — `Params` and `GenesisState`.

Go conventions are embedded as follows: a nil-able field becomes an
`Option`; a `panic` in a constructor becomes an `Except.error`; a method
that mutates its receiver returns the updated value; calling a nil
function value (a Go nil-dereference panic) is an `Option.none` outcome.
-/

set_option maxHeartbeats 1000000

/-- An ante handler as stored in a lane config. The decorator chain is
external to this repository; only its identity is relevant here. -/
structure AnteHandler where
  id : Nat
deriving DecidableEq

/-- A lane mempool. The `blockbuster.LaneMempool` interface is external
to the verified sources; only its identity (and nil-ness, via `Option`)
is relevant to the claims about lane construction. -/
structure LaneMempool where
  id : Nat
deriving DecidableEq

/-- Modelled from the spec: default handlers come from a factory on the
lane type (`DefaultPrepareLaneHandler`); the factory's body is not among
the verified sources, so a prepare-lane handler is identified only up to
its provenance — the default one, or a custom one. -/
inductive PrepareLaneHandler where
  | defaultHandler
  | custom (k : Nat)
deriving DecidableEq

/-- Modelled from the spec: a process-lane handler up to provenance,
see `PrepareLaneHandler`. -/
inductive ProcessLaneHandler where
  | defaultHandler
  | custom (k : Nat)
deriving DecidableEq

/-- Modelled from the spec: a check-order handler up to provenance,
see `PrepareLaneHandler`. -/
inductive CheckOrderHandler where
  | defaultHandler
  | custom (k : Nat)
deriving DecidableEq

mutual
/-- The `blockbuster.BaseLaneConfig` of a lane, with the fields
`lane.go` uses: the outcome of its own `ValidateBasic` (the config type
lives outside the verified sources, so that check is modelled from the
spec as an opaque verdict `validateBasicErr`), the ante handler, the
max-block-space ratio, and the ignore list — a list of lanes, which in
this repository are themselves `LaneConstructor` values. -/
inductive BaseLaneConfig (Ctx Tx : Type) where
  | mk (validateBasicErr : Option String)
       (anteHandlerF : Option AnteHandler)
       (maxBlockSpace : Rat)
       (ignoreListF : List (LaneConstructor Ctx Tx))

/-- The `LaneConstructor` struct of `lane.go`: a base config, the lane
name, the (nil-able) lane mempool, and the four (nil-able) handlers, in
source order. -/
inductive LaneConstructor (Ctx Tx : Type) where
  | mk (cfg : BaseLaneConfig Ctx Tx)
       (laneName : String)
       (laneMempool : Option LaneMempool)
       (matchHandler : Option (Ctx → Tx → Bool))
       (prepareLaneHandler : Option PrepareLaneHandler)
       (checkOrderHandler : Option CheckOrderHandler)
       (processLaneHandler : Option ProcessLaneHandler)
end

namespace BaseLaneConfig

variable {Ctx Tx : Type}

/-- The modelled outcome of `cfg.ValidateBasic()`: `none` means the base
config is valid. -/
def validateBasicErr : BaseLaneConfig Ctx Tx → Option String
  | .mk ve _ _ _ => ve

/-- The `AnteHandler` field of the config. -/
def anteHandlerOf : BaseLaneConfig Ctx Tx → Option AnteHandler
  | .mk _ ah _ _ => ah

/-- The `MaxBlockSpace` field of the config. -/
def maxBlockSpace : BaseLaneConfig Ctx Tx → Rat
  | .mk _ _ mbs _ => mbs

/-- The `IgnoreList` field of the config. -/
def IgnoreList : BaseLaneConfig Ctx Tx → List (LaneConstructor Ctx Tx)
  | .mk _ _ _ il => il

end BaseLaneConfig

namespace LaneConstructor

variable {Ctx Tx : Type}

/-- The `cfg` field of a lane. -/
def cfg : LaneConstructor Ctx Tx → BaseLaneConfig Ctx Tx
  | .mk c _ _ _ _ _ _ => c

/-- The `laneName` field of a lane. -/
def laneName : LaneConstructor Ctx Tx → String
  | .mk _ n _ _ _ _ _ => n

/-- The embedded `LaneMempool` field of a lane (`none` models nil). -/
def laneMempool : LaneConstructor Ctx Tx → Option LaneMempool
  | .mk _ _ m _ _ _ _ => m

/-- The `matchHandler` field of a lane (`none` models nil). -/
def matchHandler : LaneConstructor Ctx Tx → Option (Ctx → Tx → Bool)
  | .mk _ _ _ mh _ _ _ => mh

/-- The `prepareLaneHandler` field of a lane (`none` models nil). -/
def prepareLaneHandler : LaneConstructor Ctx Tx → Option PrepareLaneHandler
  | .mk _ _ _ _ pr _ _ => pr

/-- The `checkOrderHandler` field of a lane (`none` models nil). -/
def checkOrderHandler : LaneConstructor Ctx Tx → Option CheckOrderHandler
  | .mk _ _ _ _ _ ch _ => ch

/-- The `processLaneHandler` field of a lane (`none` models nil). -/
def processLaneHandler : LaneConstructor Ctx Tx → Option ProcessLaneHandler
  | .mk _ _ _ _ _ _ pro => pro

/-- The `Name()` method of `lane.go`. -/
def Name (l : LaneConstructor Ctx Tx) : String :=
  l.laneName

/-- Modelled from the spec: `l.DefaultPrepareLaneHandler()`, the factory
for the default prepare-lane handler; its body is outside the verified
sources. -/
def DefaultPrepareLaneHandler (_l : LaneConstructor Ctx Tx) : PrepareLaneHandler :=
  .defaultHandler

/-- Modelled from the spec: `l.DefaultProcessLaneHandler()`. -/
def DefaultProcessLaneHandler (_l : LaneConstructor Ctx Tx) : ProcessLaneHandler :=
  .defaultHandler

/-- Modelled from the spec: `l.DefaultCheckOrderHandler()`. -/
def DefaultCheckOrderHandler (_l : LaneConstructor Ctx Tx) : CheckOrderHandler :=
  .defaultHandler

/-- The `ValidateBasic` method of `lane.go`: propagate the base config's
own validation error; reject an empty lane name, a nil mempool, a nil
match handler; then fill each nil optional handler with the lane's
default handler. Go mutates the receiver, so the embedding returns the
updated lane on success. -/
def ValidateBasic : LaneConstructor Ctx Tx → Except String (LaneConstructor Ctx Tx)
  | l@(.mk c name mp mh pr ch pro) =>
    match c.validateBasicErr with
    | some e => .error e
    | none =>
      if name = "" then .error "lane name cannot be empty"
      else if mp.isNone then .error "lane mempool cannot be nil"
      else if mh.isNone then .error "match handler cannot be nil"
      else
        let pr2 := if pr.isNone then some l.DefaultPrepareLaneHandler else pr
        let pro2 := if pro.isNone then some l.DefaultProcessLaneHandler else pro
        let ch2 := if ch.isNone then some l.DefaultCheckOrderHandler else ch
        .ok (.mk c name mp mh pr2 ch2 pro2)

/-- The `SetPrepareLaneHandler` method: overwrite the prepare-lane
handler, leaving every other field as it was. -/
def SetPrepareLaneHandler : LaneConstructor Ctx Tx → Option PrepareLaneHandler → LaneConstructor Ctx Tx
  | .mk c n m mh _ ch pro, p => .mk c n m mh p ch pro

/-- The `SetProcessLaneHandler` method: overwrite the process-lane
handler, leaving every other field as it was. -/
def SetProcessLaneHandler : LaneConstructor Ctx Tx → Option ProcessLaneHandler → LaneConstructor Ctx Tx
  | .mk c n m mh pr ch _, p => .mk c n m mh pr ch p

/-- The `SetCheckOrderHandler` method: overwrite the check-order
handler, leaving every other field as it was. -/
def SetCheckOrderHandler : LaneConstructor Ctx Tx → Option CheckOrderHandler → LaneConstructor Ctx Tx
  | .mk c n m mh pr _ pro, p => .mk c n m mh pr p pro

mutual
/-- The `Match` method of `lane.go`:
`l.matchHandler(ctx, tx) && !l.CheckIgnoreList(ctx, tx)`, with Go's
short-circuit `&&`. A nil match handler (a nil-dereference panic in Go)
yields `none`; so does a panic arising inside the ignore-list walk. -/
def Match (ctx : Ctx) (tx : Tx) : LaneConstructor Ctx Tx → Option Bool
  | .mk (.mk _ _ _ il) _ _ mh _ _ _ =>
    match mh with
    | none => none
    | some f =>
      match f ctx tx with
      | false => some false
      | true => Option.map Bool.not (CheckIgnoreListGo ctx tx il)

/-- The loop body of `CheckIgnoreList` in `lane.go`: walk the ignore
list and return `true` at the first lane whose `Match` accepts the
transaction, `false` when the list is exhausted. -/
def CheckIgnoreListGo (ctx : Ctx) (tx : Tx) : List (LaneConstructor Ctx Tx) → Option Bool
  | [] => some false
  | l :: ls =>
    match Match ctx tx l with
    | none => none
    | some true => some true
    | some false => CheckIgnoreListGo ctx tx ls
end

/-- The `CheckIgnoreList` method of `lane.go`, as a method on the lane:
walk `l.cfg.IgnoreList`. -/
def CheckIgnoreList (l : LaneConstructor Ctx Tx) (ctx : Ctx) (tx : Tx) : Option Bool :=
  CheckIgnoreListGo ctx tx l.cfg.IgnoreList

end LaneConstructor

/-- The `NewLaneConstructor` constructor of `lane.go`: build the lane
from the given config, name, mempool and match handler (the three
optional handlers start out nil), then run `ValidateBasic`; Go panics on
a validation error, embedded as `Except.error`. -/
def NewLaneConstructor {Ctx Tx : Type} (cfg : BaseLaneConfig Ctx Tx) (laneName : String)
    (laneMempool : Option LaneMempool) (matchHandlerFn : Option (Ctx → Tx → Bool)) :
    Except String (LaneConstructor Ctx Tx) :=
  let lane := LaneConstructor.mk cfg laneName laneMempool matchHandlerFn none none none
  match lane.ValidateBasic with
  | .error e => .error e
  | .ok lane2 => .ok lane2

/-- A coin: a denomination and a non-negative integer amount, as in the
spec's data model. -/
structure Coin where
  denom : String
  amount : Nat
deriving DecidableEq

/-- The value of one character of the standard base64 alphabet
(`A-Za-z0-9+/`), `none` for any other character. -/
def base64Index (c : Char) : Option Nat :=
  if 'A' ≤ c ∧ c ≤ 'Z' then some (c.toNat - 65)
  else if 'a' ≤ c ∧ c ≤ 'z' then some (c.toNat - 97 + 26)
  else if '0' ≤ c ∧ c ≤ '9' then some (c.toNat - 48 + 52)
  else if c = '+' then some 62
  else if c = '/' then some 63
  else none

/-- Decode a padded base64 character stream four characters at a time:
a non-final quantum of four alphabet characters yields three bytes; the
final quantum may end in one or two `=` padding characters, yielding two
bytes or one; anything else — a stray `=`, a character outside the
alphabet, a length that is not a multiple of four — is corrupt input. -/
def base64DecodeQuanta : List Char → Option (List Nat)
  | [] => some []
  | a :: b :: c :: d :: rest =>
    match base64Index a, base64Index b with
    | some va, some vb =>
      if rest.isEmpty ∧ c = '=' ∧ d = '=' then
        some [va * 4 + vb / 16]
      else
        match base64Index c with
        | some vc =>
          if rest.isEmpty ∧ d = '=' then
            some [va * 4 + vb / 16, vb % 16 * 16 + vc / 4]
          else
            match base64Index d with
            | some vd =>
              match base64DecodeQuanta rest with
              | some bs =>
                some ((va * 4 + vb / 16) :: (vb % 16 * 16 + vc / 4) :: (vc % 4 * 64 + vd) :: bs)
              | none => none
            | none => none
        | none => none
    | _, _ => none
  | _ => none

/-- Go's `base64.StdEncoding.DecodeString`: newline characters are
ignored, then the stream is decoded quantum by quantum; `none` models
the `CorruptInputError` outcome. -/
def base64StdDecodeString (s : String) : Option (List Nat) :=
  base64DecodeQuanta (s.data.filter fun c => c != '\n' && c != '\r')

/-- The `MsgAuctionBid` message: bidder address, bid coin, and the
ordered bundle of raw transaction bytes. -/
structure MsgAuctionBid where
  bidder : String
  bid : Coin
  transactions : List (List Nat)
deriving DecidableEq

/-- Modelled from the spec: `types.NewMsgAuctionBid` (not among the
verified sources) packs its three arguments into a `MsgAuctionBid`. -/
def NewMsgAuctionBid (bidder : String) (bid : Coin) (transactions : List (List Nat)) :
    MsgAuctionBid :=
  { bidder := bidder, bid := bid, transactions := transactions }

/-- The distinct local error exits of the `auction-bid` command body:
the cobra arity check, a failure to set the from flag, a failure to
obtain the client transaction context, a bid-coin parse failure, a zero
timeout height, and a base64 failure on the bundled transaction at a
given index. -/
inductive CmdError where
  | wrongArgCount
  | setFromError (e : String)
  | clientCtxError (e : String)
  | parseCoinError (e : String)
  | timeoutHeightZero
  | base64DecodeError (i : Nat)
deriving DecidableEq

/-- The observable outcome of one invocation of the command: a local
error, or the `MsgAuctionBid` handed to `tx.GenerateOrBroadcastTxCLI`. -/
inductive CmdOutcome where
  | err (e : CmdError)
  | broadcast (msg : MsgAuctionBid)
deriving DecidableEq

/-- Go's `strings.Split` on the separator "," over the characters of
the third argument: split around every comma; the empty string yields
the single empty token. -/
def splitOnCommaChars : List Char → List (List Char)
  | [] => [[]]
  | c :: cs =>
    let rest := splitOnCommaChars cs
    if c = ',' then [] :: rest
    else
      match rest with
      | [] => [[c]]
      | r :: rs => (c :: r) :: rs

/-- Go's `strings.Split(s, ",")` as called by the command body. -/
def stringsSplit (s : String) : List String :=
  (splitOnCommaChars s.data).map fun cs => String.mk cs

/-- The decoding loop of `NewAuctionBidTx`: base64-decode each
comma-separated token in order, failing with the index of the first
token that is not valid base64. -/
def decodeBundledTxs : Nat → List String → Except Nat (List (List Nat))
  | _, [] => .ok []
  | i, token :: rest =>
    match base64StdDecodeString token with
    | none => .error i
    | some rawTx =>
      match decodeBundledTxs (i + 1) rest with
      | .error j => .error j
      | .ok txs => .ok (rawTx :: txs)

/-- The `RunE` body of `NewAuctionBidTx` in `tx.go`, together with its
`cobra.ExactArgs(3)` arity guard. The host effects are parameters:
`setFromFlag` models `cmd.Flags().Set(flags.FlagFrom, args[0])`
(`none` = success), `getClientTxContext` models
`client.GetClientTxContext` resolving the just-set from flag to the
context's from address, `parseCoinNormalized` models
`sdk.ParseCoinNormalized`, and `timeoutHeight` is the resolved value of
the `--timeout-height` flag (whose lookup error the source discards).
The steps run in source order: set the from flag, get the context,
parse the bid, check the timeout, split the third argument on commas
and base64-decode each token, then build the message and hand it to
broadcast. -/
def NewAuctionBidTxRunE
    (setFromFlag : String → Option String)
    (getClientTxContext : String → Except String String)
    (parseCoinNormalized : String → Except String Coin)
    (timeoutHeight : Nat)
    (args : List String) : CmdOutcome :=
  match args with
  | [bidderArg, bidArg, bundleArg] =>
    match setFromFlag bidderArg with
    | some e => .err (.setFromError e)
    | none =>
      match getClientTxContext bidderArg with
      | .error e => .err (.clientCtxError e)
      | .ok fromAddress =>
        match parseCoinNormalized bidArg with
        | .error e => .err (.parseCoinError e)
        | .ok bid =>
          if timeoutHeight = 0 then .err .timeoutHeightZero
          else
            match decodeBundledTxs 0 (stringsSplit bundleArg) with
            | .error i => .err (.base64DecodeError i)
            | .ok bundledTxs => .broadcast (NewMsgAuctionBid fromAddress bid bundledTxs)
  | _ => .err .wrongArgCount

/-- The `sdk.Dec` decimal type of the proposer-fee field, embedded as a
rational number. -/
abbrev Dec := Rat

/-- The `Params` message of the builder protobuf schema, with its seven
fields in wire order. -/
structure Params where
  maxBundleSize : UInt32
  escrowAccountAddress : String
  reserveFee : Coin
  minBuyInFee : Coin
  minBidIncrement : Coin
  frontRunningProtection : Bool
  proposerFee : Dec
deriving DecidableEq

/-- The `GenesisState` message of the builder protobuf schema: a single
non-nullable `Params` field. -/
structure GenesisState where
  params : Params
deriving DecidableEq

/-- A concrete lane (empty ignore list, never-matching handler) used to
evaluate the lane theorems on explicit inputs. -/
def witIgnoredLane : LaneConstructor Nat Nat :=
  .mk (.mk none none 0 []) "ignored" (some ⟨0⟩) (some fun _ _ => false) none none none

/-- A concrete lane whose ignore list holds `witIgnoredLane`, used to
evaluate the lane theorems on explicit inputs. -/
def witMainLane : LaneConstructor Nat Nat :=
  .mk (.mk none none 0 [witIgnoredLane]) "main" (some ⟨1⟩) (some fun _ _ => true) none none none

/-- A concrete lane with a custom process-lane handler and the other two
optional handlers nil, used to evaluate `ValidateBasic` on an explicit
input. -/
def witLaneDefaults : LaneConstructor Nat Nat :=
  .mk (.mk none none 0 []) "free" (some ⟨1⟩) (some fun _ _ => true) none none (some (.custom 5))

/-- A concrete valid base lane config. -/
def witBaseCfg : BaseLaneConfig Nat Nat :=
  .mk none none 0 []

namespace LaneConstructor

variable {Ctx Tx : Type}

/-- Unfolding equation for `Match` on a lane whose match handler is
set: the handler's verdict, and-ed (short-circuit) with the negated
`CheckIgnoreList` verdict. -/
theorem Match_some (ctx : Ctx) (tx : Tx) (l : LaneConstructor Ctx Tx)
    (f : Ctx → Tx → Bool) (h : l.matchHandler = some f) :
    Match ctx tx l =
      if f ctx tx then Option.map Bool.not (l.CheckIgnoreList ctx tx) else some false := by
  cases l with
  | mk c n m mh pr ch pro =>
    cases c with
    | mk ve ah mbs il =>
      have h2 : mh = some f := h
      subst h2
      show (match f ctx tx with
            | false => some false
            | true => Option.map Bool.not (CheckIgnoreListGo ctx tx il)) =
        if f ctx tx then Option.map Bool.not (CheckIgnoreListGo ctx tx il) else some false
      cases f ctx tx <;> rfl

/-- Unfolding equation for the ignore-list walk on a cons cell. -/
theorem checkIgnoreListGo_cons (ctx : Ctx) (tx : Tx) (l : LaneConstructor Ctx Tx)
    (ls : List (LaneConstructor Ctx Tx)) :
    CheckIgnoreListGo ctx tx (l :: ls) =
      match Match ctx tx l with
      | none => none
      | some true => some true
      | some false => CheckIgnoreListGo ctx tx ls := rfl

/-- The ignore-list walk answers `false` exactly when every lane on the
list answers `Match = some false`. -/
theorem checkIgnoreListGo_eq_false_iff (ctx : Ctx) (tx : Tx)
    (ls : List (LaneConstructor Ctx Tx)) :
    CheckIgnoreListGo ctx tx ls = some false ↔
      ∀ m ∈ ls, Match ctx tx m = some false := by
  induction ls with
  | nil => simp [CheckIgnoreListGo]
  | cons l ls ih =>
    rw [checkIgnoreListGo_cons]
    rcases hm : Match ctx tx l with _ | b
    · simp [hm]
    · cases b
      · simp [hm, ih]
      · simp [hm]

/-- The ignore-list walk returns an answer (does not hit a nil handler)
whenever every lane on the list does. -/
theorem checkIgnoreListGo_isSome (ctx : Ctx) (tx : Tx)
    (ls : List (LaneConstructor Ctx Tx))
    (hwf : ∀ m ∈ ls, (Match ctx tx m).isSome) :
    (CheckIgnoreListGo ctx tx ls).isSome := by
  induction ls with
  | nil => simp [CheckIgnoreListGo]
  | cons l ls ih =>
    have h1 := hwf l (List.mem_cons_self l ls)
    rw [checkIgnoreListGo_cons]
    rcases hm : Match ctx tx l with _ | b
    · rw [hm] at h1; simp at h1
    · cases b
      · exact ih fun m hm2 => hwf m (List.mem_cons_of_mem l hm2)
      · simp

/-- The ignore-list walk answers `true` exactly when some lane on the
list `Match`es, provided no lane on the list panics on this input. -/
theorem checkIgnoreListGo_eq_true_iff (ctx : Ctx) (tx : Tx)
    (ls : List (LaneConstructor Ctx Tx))
    (hwf : ∀ m ∈ ls, (Match ctx tx m).isSome) :
    CheckIgnoreListGo ctx tx ls = some true ↔
      ∃ m ∈ ls, Match ctx tx m = some true := by
  induction ls with
  | nil => simp [CheckIgnoreListGo]
  | cons l ls ih =>
    have h1 := hwf l (List.mem_cons_self l ls)
    have ihs := ih fun m hm2 => hwf m (List.mem_cons_of_mem l hm2)
    rw [checkIgnoreListGo_cons]
    rcases hm : Match ctx tx l with _ | b
    · rw [hm] at h1; simp at h1
    · cases b
      · simp [hm, ihs]
      · exact iff_of_true (by simp [hm]) ⟨l, List.mem_cons_self l ls, hm⟩

end LaneConstructor

/-- C1: `Match(ctx, tx)` returns true exactly when the lane's match
handler accepts `(ctx, tx)` and no lane on the ignore list `Match`es the
transaction; stated for a lane whose match handler is set and whose
ignore-list walk cannot hit a nil match handler on this input. -/
theorem match_iff_handler_and_not_on_ignore_list {Ctx Tx : Type}
    (l : LaneConstructor Ctx Tx) (ctx : Ctx) (tx : Tx) (f : Ctx → Tx → Bool)
    (hf : l.matchHandler = some f)
    (hwf : ∀ m ∈ l.cfg.IgnoreList, (LaneConstructor.Match ctx tx m).isSome) :
    LaneConstructor.Match ctx tx l = some true ↔
      (f ctx tx = true ∧
        ∀ m ∈ l.cfg.IgnoreList, LaneConstructor.Match ctx tx m ≠ some true) := by
  rw [LaneConstructor.Match_some ctx tx l f hf]
  cases hfx : f ctx tx
  · simp
  · simp only [if_true, true_and]
    rw [LaneConstructor.CheckIgnoreList]
    have hsome := LaneConstructor.checkIgnoreListGo_isSome ctx tx l.cfg.IgnoreList hwf
    rcases ho : LaneConstructor.CheckIgnoreListGo ctx tx l.cfg.IgnoreList with _ | b
    · rw [ho] at hsome; simp at hsome
    · cases b
      · have hall := (LaneConstructor.checkIgnoreListGo_eq_false_iff ctx tx _).mp ho
        refine iff_of_true rfl fun m hm => ?_
        rw [hall m hm]
        simp
      · have hex := (LaneConstructor.checkIgnoreListGo_eq_true_iff ctx tx _ hwf).mp ho
        refine iff_of_false (by simp) fun hforall => ?_
        obtain ⟨m, hm, hmt⟩ := hex
        exact hforall m hm hmt

/-- C1 witness: on the concrete lane `witMainLane` (accept-all handler,
one non-matching ignored lane) at input `(0, 0)`, `Match` returns
`true`. -/
theorem match_iff_handler_and_not_on_ignore_list_witness :
    LaneConstructor.Match 0 0 witMainLane = some true :=
  (match_iff_handler_and_not_on_ignore_list witMainLane 0 0 (fun _ _ => true) rfl
    (by decide)).mpr ⟨rfl, by decide⟩

/-- C10: `CheckIgnoreList` decides ignore-list membership by the ignored
lanes' own `Match` predicates: it returns true exactly when some lane on
`cfg.IgnoreList` `Match`es `(ctx, tx)`; any lane's `Match` in turn
consults that lane's own match handler and, recursively, its own ignore
list; and for a lane whose ignore list is empty, `Match` equals the
match handler's result alone. -/
theorem checkIgnoreList_recursive_match_semantics {Ctx Tx : Type}
    (l : LaneConstructor Ctx Tx) (ctx : Ctx) (tx : Tx)
    (hwf : ∀ m ∈ l.cfg.IgnoreList, (LaneConstructor.Match ctx tx m).isSome) :
    (l.CheckIgnoreList ctx tx = some true ↔
      ∃ m ∈ l.cfg.IgnoreList, LaneConstructor.Match ctx tx m = some true)
    ∧ (∀ (m : LaneConstructor Ctx Tx) (g : Ctx → Tx → Bool), m.matchHandler = some g →
        LaneConstructor.Match ctx tx m =
          if g ctx tx then Option.map Bool.not (m.CheckIgnoreList ctx tx) else some false)
    ∧ (∀ f : Ctx → Tx → Bool, l.matchHandler = some f → l.cfg.IgnoreList = [] →
        LaneConstructor.Match ctx tx l = some (f ctx tx)) := by
  refine ⟨?_, ?_, ?_⟩
  · rw [LaneConstructor.CheckIgnoreList]
    exact LaneConstructor.checkIgnoreListGo_eq_true_iff ctx tx _ hwf
  · intro m g hg
    exact LaneConstructor.Match_some ctx tx m g hg
  · intro f hf hnil
    rw [LaneConstructor.Match_some ctx tx l f hf, LaneConstructor.CheckIgnoreList, hnil]
    cases hfx : f ctx tx <;> rfl

/-- C10 witness: on the concrete lane `witIgnoredLane` (empty ignore
list, reject-all handler) at input `(0, 0)`, `Match` is exactly the
handler's verdict `false`. -/
theorem checkIgnoreList_recursive_match_semantics_witness :
    LaneConstructor.Match 0 0 witIgnoredLane = some false :=
  (checkIgnoreList_recursive_match_semantics witIgnoredLane 0 0 (by decide)).2.2
    (fun _ _ => false) rfl rfl

/-- C2: `NewLaneConstructor` panics (embedded as `Except.error`) exactly
when a required field is missing — the base config is invalid, the lane
name is empty, the lane mempool is nil, or the match handler is nil —
and otherwise returns a lane without panicking. -/
theorem newLaneConstructor_panics_iff {Ctx Tx : Type} (cfg : BaseLaneConfig Ctx Tx)
    (laneName : String) (laneMempool : Option LaneMempool)
    (matchHandlerFn : Option (Ctx → Tx → Bool)) :
    ((∃ e, NewLaneConstructor cfg laneName laneMempool matchHandlerFn = .error e) ↔
      (cfg.validateBasicErr ≠ none ∨ laneName = "" ∨ laneMempool = none ∨
        matchHandlerFn = none))
    ∧ ((cfg.validateBasicErr = none ∧ laneName ≠ "" ∧ laneMempool ≠ none ∧
        matchHandlerFn ≠ none) →
      ∃ lane, NewLaneConstructor cfg laneName laneMempool matchHandlerFn = .ok lane) := by
  cases cfg with
  | mk ve ah mbs il =>
    simp only [NewLaneConstructor, LaneConstructor.ValidateBasic,
      BaseLaneConfig.validateBasicErr]
    cases ve
    · by_cases hn : laneName = ""
      · simp [hn]
      · cases laneMempool
        · simp [hn]
        · cases matchHandlerFn
          · simp [hn]
          · simp [hn]
    · simp

/-- C2 witness: with a valid config, a non-empty name, a mempool and a
match handler, `NewLaneConstructor` returns a lane. -/
theorem newLaneConstructor_panics_iff_witness :
    ∃ lane, NewLaneConstructor witBaseCfg "free" (some ⟨1⟩)
      (some fun (_ : Nat) (_ : Nat) => true) = .ok lane :=
  (newLaneConstructor_panics_iff witBaseCfg "free" (some ⟨1⟩)
    (some fun _ _ => true)).2 ⟨rfl, by decide, by simp, by simp⟩

/-- C3: on a lane whose config is valid, whose name is non-empty, and
whose mempool and match handler are set, `ValidateBasic` succeeds; in
the resulting lane each optional handler that was nil is the lane's
default handler, a handler that was set is kept, and none of the four
handlers is nil. -/
theorem validateBasic_sets_default_handlers {Ctx Tx : Type} (l : LaneConstructor Ctx Tx)
    (hcfg : l.cfg.validateBasicErr = none) (hname : l.laneName ≠ "")
    (hmp : l.laneMempool.isSome) (hmh : l.matchHandler.isSome) :
    ∃ l2, l.ValidateBasic = .ok l2
      ∧ l2.prepareLaneHandler = some (l.prepareLaneHandler.getD l.DefaultPrepareLaneHandler)
      ∧ l2.processLaneHandler = some (l.processLaneHandler.getD l.DefaultProcessLaneHandler)
      ∧ l2.checkOrderHandler = some (l.checkOrderHandler.getD l.DefaultCheckOrderHandler)
      ∧ l2.matchHandler = l.matchHandler ∧ l2.laneName = l.laneName
      ∧ l2.laneMempool = l.laneMempool ∧ l2.cfg = l.cfg
      ∧ l2.prepareLaneHandler.isSome ∧ l2.processLaneHandler.isSome
      ∧ l2.checkOrderHandler.isSome ∧ l2.matchHandler.isSome := by
  cases l with
  | mk c n mp mh pr ch pro =>
    cases c with
    | mk ve ah mbs il =>
      simp only [LaneConstructor.cfg, BaseLaneConfig.validateBasicErr] at hcfg
      subst hcfg
      simp only [LaneConstructor.laneName] at hname
      simp only [LaneConstructor.laneMempool] at hmp
      simp only [LaneConstructor.matchHandler] at hmh
      obtain ⟨mpv, rfl⟩ := Option.isSome_iff_exists.mp hmp
      obtain ⟨mhv, rfl⟩ := Option.isSome_iff_exists.mp hmh
      refine ⟨LaneConstructor.mk (BaseLaneConfig.mk none ah mbs il) n (some mpv) (some mhv)
          (some (pr.getD .defaultHandler)) (some (ch.getD .defaultHandler))
          (some (pro.getD .defaultHandler)),
        ?_, rfl, rfl, rfl, rfl, rfl, rfl, rfl, rfl, rfl, rfl, rfl⟩
      simp only [LaneConstructor.ValidateBasic, BaseLaneConfig.validateBasicErr]
      rw [if_neg hname]
      cases pr <;> cases ch <;> cases pro <;> rfl

/-- C3 witness: on the concrete lane `witLaneDefaults` (valid config,
name "free", mempool and match handler set, custom process-lane handler,
nil prepare-lane and check-order handlers) `ValidateBasic` succeeds and
the resulting prepare-lane handler is set. -/
theorem validateBasic_sets_default_handlers_witness :
    ∃ l2, witLaneDefaults.ValidateBasic = .ok l2 ∧ l2.prepareLaneHandler.isSome := by
  obtain ⟨l2, h1, _, _, _, _, _, _, _, h9, _⟩ :=
    validateBasic_sets_default_handlers witLaneDefaults rfl (by decide) rfl rfl
  exact ⟨l2, h1, h9⟩

/-- C8: each of the three handler setters mutates the constructed lane,
replacing exactly its own handler and leaving the lane's config, name,
mempool, match handler and the other two handlers unchanged. -/
theorem set_handlers_replace_only_their_handler {Ctx Tx : Type}
    (l : LaneConstructor Ctx Tx) (p : Option PrepareLaneHandler)
    (q : Option ProcessLaneHandler) (co : Option CheckOrderHandler) :
    ((l.SetPrepareLaneHandler p).prepareLaneHandler = p
      ∧ (l.SetPrepareLaneHandler p).cfg = l.cfg
      ∧ (l.SetPrepareLaneHandler p).laneName = l.laneName
      ∧ (l.SetPrepareLaneHandler p).laneMempool = l.laneMempool
      ∧ (l.SetPrepareLaneHandler p).matchHandler = l.matchHandler
      ∧ (l.SetPrepareLaneHandler p).processLaneHandler = l.processLaneHandler
      ∧ (l.SetPrepareLaneHandler p).checkOrderHandler = l.checkOrderHandler)
    ∧ ((l.SetProcessLaneHandler q).processLaneHandler = q
      ∧ (l.SetProcessLaneHandler q).cfg = l.cfg
      ∧ (l.SetProcessLaneHandler q).laneName = l.laneName
      ∧ (l.SetProcessLaneHandler q).laneMempool = l.laneMempool
      ∧ (l.SetProcessLaneHandler q).matchHandler = l.matchHandler
      ∧ (l.SetProcessLaneHandler q).prepareLaneHandler = l.prepareLaneHandler
      ∧ (l.SetProcessLaneHandler q).checkOrderHandler = l.checkOrderHandler)
    ∧ ((l.SetCheckOrderHandler co).checkOrderHandler = co
      ∧ (l.SetCheckOrderHandler co).cfg = l.cfg
      ∧ (l.SetCheckOrderHandler co).laneName = l.laneName
      ∧ (l.SetCheckOrderHandler co).laneMempool = l.laneMempool
      ∧ (l.SetCheckOrderHandler co).matchHandler = l.matchHandler
      ∧ (l.SetCheckOrderHandler co).prepareLaneHandler = l.prepareLaneHandler
      ∧ (l.SetCheckOrderHandler co).processLaneHandler = l.processLaneHandler) := by
  cases l with
  | mk c n m mh pr ch pro =>
    exact ⟨⟨rfl, rfl, rfl, rfl, rfl, rfl, rfl⟩, ⟨rfl, rfl, rfl, rfl, rfl, rfl, rfl⟩,
      ⟨rfl, rfl, rfl, rfl, rfl, rfl, rfl⟩⟩

/-- The decoding loop succeeds exactly as an in-order `mapM` of the
base64 decoder: a `some` result of `mapM` yields `ok` with the same
list, for any start index. -/
theorem decodeBundledTxs_ok_of_mapM (ts : List String) :
    ∀ i txs, ts.mapM base64StdDecodeString = some txs → decodeBundledTxs i ts = .ok txs := by
  induction ts with
  | nil =>
    intro i txs h
    simp only [List.mapM_nil, pure, Option.some.injEq] at h
    subst h
    rfl
  | cons t ts ih =>
    intro i txs h
    rw [List.mapM_cons] at h
    cases hd : base64StdDecodeString t with
    | none => rw [hd] at h; simp at h
    | some b =>
      rw [hd] at h
      cases hm : ts.mapM base64StdDecodeString with
      | none => rw [hm] at h; simp at h
      | some bs =>
        rw [hm] at h
        simp at h
        subst h
        simp [decodeBundledTxs, hd, ih (i + 1) bs hm]

/-- The decoding loop fails at the first bad token: if some token is
not valid base64, the loop returns `.error (i + j)` where `j` indexes a
bad token, every token before `j` decodes, and `i` is any start
index. -/
theorem decodeBundledTxs_error_first (ts : List String) :
    ∀ i, (∃ t ∈ ts, base64StdDecodeString t = none) →
      ∃ j, ∃ hj : j < ts.length, base64StdDecodeString (ts.get ⟨j, hj⟩) = none ∧
        (∀ k, ∀ hk : k < j,
          base64StdDecodeString (ts.get ⟨k, Nat.lt_trans hk hj⟩) ≠ none) ∧
        decodeBundledTxs i ts = .error (i + j) := by
  induction ts with
  | nil => intro i h; simp at h
  | cons t ts ih =>
    intro i h
    cases hd : base64StdDecodeString t with
    | none =>
      refine ⟨0, Nat.succ_pos _, by simpa using hd, ?_, ?_⟩
      · intro k hk
        exact absurd hk (Nat.not_lt_zero k)
      · simp [decodeBundledTxs, hd]
    | some b =>
      have h2 : ∃ u ∈ ts, base64StdDecodeString u = none := by
        obtain ⟨u, hu, hun⟩ := h
        rcases List.mem_cons.mp hu with rfl | hu2
        · rw [hd] at hun; exact absurd hun (by simp)
        · exact ⟨u, hu2, hun⟩
      obtain ⟨j, hj, hjn, hjmin, hje⟩ := ih (i + 1) h2
      refine ⟨j + 1, Nat.succ_lt_succ hj, by simpa using hjn, ?_, ?_⟩
      · intro k hk
        cases k with
        | zero =>
          show base64StdDecodeString t ≠ none
          rw [hd]
          exact Option.some_ne_none b
        | succ k2 =>
          exact hjmin k2 (Nat.lt_of_succ_lt_succ hk)
      · have hje2 : decodeBundledTxs (i + 1) ts = .error (i + (j + 1)) := by
          rw [hje]; congr 1; omega
        simp [decodeBundledTxs, hd, hje2]

/-- C4: whenever the `--timeout-height` flag resolves to 0, the command
exits with a local error and never reaches message construction or
broadcast, whatever the other arguments and host outcomes are. -/
theorem auctionBid_zero_timeout_no_broadcast
    (setF : String → Option String) (getC : String → Except String String)
    (parseC : String → Except String Coin) (args : List String) :
    (∃ e, NewAuctionBidTxRunE setF getC parseC 0 args = .err e)
    ∧ ∀ msg, NewAuctionBidTxRunE setF getC parseC 0 args ≠ .broadcast msg := by
  have herr : ∃ e, NewAuctionBidTxRunE setF getC parseC 0 args = .err e := by
    match args with
    | [] => exact ⟨.wrongArgCount, rfl⟩
    | [a] => exact ⟨.wrongArgCount, rfl⟩
    | [a, b] => exact ⟨.wrongArgCount, rfl⟩
    | a :: b :: c :: d :: rest => exact ⟨.wrongArgCount, rfl⟩
    | [a0, a1, a2] =>
      cases hs : setF a0 with
      | some e => exact ⟨.setFromError e, by simp [NewAuctionBidTxRunE, hs]⟩
      | none =>
        cases hc : getC a0 with
        | error e => exact ⟨.clientCtxError e, by simp [NewAuctionBidTxRunE, hs, hc]⟩
        | ok addr =>
          cases hp : parseC a1 with
          | error e => exact ⟨.parseCoinError e, by simp [NewAuctionBidTxRunE, hs, hc, hp]⟩
          | ok c => exact ⟨.timeoutHeightZero, by simp [NewAuctionBidTxRunE, hs, hc, hp]⟩
  refine ⟨herr, ?_⟩
  obtain ⟨e, he⟩ := herr
  intro msg hmsg
  rw [he] at hmsg
  exact CmdOutcome.noConfusion hmsg

/-- C5 counterexample: an invocation whose third argument "!" is not
valid base64 but whose `--timeout-height` is 0 exits with the timeout
error, which names no bundled-transaction index; so a bad token does
not, on every invocation, produce the index-identifying error. -/
theorem auctionBid_bad_base64_counterexample :
    base64StdDecodeString "!" = none
    ∧ NewAuctionBidTxRunE (fun _ => none) (fun s => Except.ok s)
        (fun s => Except.ok ⟨s, 1⟩) 0 ["cosmos1bidder", "10uatom", "!"]
        = .err .timeoutHeightZero
    ∧ ∀ i, NewAuctionBidTxRunE (fun _ => none) (fun s => Except.ok s)
        (fun s => Except.ok ⟨s, 1⟩) 0 ["cosmos1bidder", "10uatom", "!"]
        ≠ .err (.base64DecodeError i) := by
  refine ⟨by decide, rfl, ?_⟩
  intro i hmsg
  rw [show NewAuctionBidTxRunE (fun _ => none) (fun s => Except.ok s)
      (fun s => Except.ok ⟨s, 1⟩) 0 ["cosmos1bidder", "10uatom", "!"]
      = CmdOutcome.err .timeoutHeightZero from rfl] at hmsg
  exact CmdError.noConfusion (CmdOutcome.err.inj hmsg)

/-- C5 as amended: when the from flag, client context and bid parse
succeed and the timeout height is non-zero, an invocation with a
bundled-transaction token that is not valid base64 exits with an error
identifying the index of the first offending token — the token at the
reported index fails to decode and every earlier token decodes — and
broadcasts nothing. -/
theorem auctionBid_bad_base64_first_index_error
    (setF : String → Option String) (getC : String → Except String String)
    (parseC : String → Except String Coin) (tH : Nat) (a0 a1 a2 addr : String) (c : Coin)
    (h0 : setF a0 = none) (h1 : getC a0 = .ok addr) (h2 : parseC a1 = .ok c)
    (h3 : tH ≠ 0) (hbad : ∃ t ∈ stringsSplit a2, base64StdDecodeString t = none) :
    ∃ j, ∃ hj : j < (stringsSplit a2).length,
      base64StdDecodeString ((stringsSplit a2).get ⟨j, hj⟩) = none
      ∧ (∀ k, ∀ hk : k < j,
          base64StdDecodeString ((stringsSplit a2).get ⟨k, Nat.lt_trans hk hj⟩) ≠ none)
      ∧ NewAuctionBidTxRunE setF getC parseC tH [a0, a1, a2] = .err (.base64DecodeError j)
      ∧ ∀ msg, NewAuctionBidTxRunE setF getC parseC tH [a0, a1, a2] ≠ .broadcast msg := by
  obtain ⟨j, hj, hjn, hjmin, hje⟩ := decodeBundledTxs_error_first (stringsSplit a2) 0 hbad
  have hje0 : decodeBundledTxs 0 (stringsSplit a2) = .error j := by simpa using hje
  have hrun : NewAuctionBidTxRunE setF getC parseC tH [a0, a1, a2]
      = .err (.base64DecodeError j) := by
    simp [NewAuctionBidTxRunE, h0, h1, h2, h3, hje0]
  refine ⟨j, hj, hjn, hjmin, hrun, fun msg hmsg => ?_⟩
  rw [hrun] at hmsg
  exact CmdOutcome.noConfusion hmsg

/-- C5 witness: on a concrete invocation with successful host steps,
timeout 5 and third argument "aGk=,!" (a valid token followed by an
invalid one), the command reports the index of the first offending
token, every earlier token decoding. -/
theorem auctionBid_bad_base64_first_index_error_witness :
    ∃ j, ∃ hj : j < (stringsSplit "aGk=,!").length,
      base64StdDecodeString ((stringsSplit "aGk=,!").get ⟨j, hj⟩) = none
      ∧ (∀ k, ∀ hk : k < j,
          base64StdDecodeString ((stringsSplit "aGk=,!").get ⟨k, Nat.lt_trans hk hj⟩) ≠ none)
      ∧ NewAuctionBidTxRunE (fun _ => none) (fun s => Except.ok s)
          (fun s => Except.ok ⟨s, 1⟩) 5 ["cosmos1b", "10uatom", "aGk=,!"]
          = .err (.base64DecodeError j)
      ∧ ∀ msg, NewAuctionBidTxRunE (fun _ => none) (fun s => Except.ok s)
          (fun s => Except.ok ⟨s, 1⟩) 5 ["cosmos1b", "10uatom", "aGk=,!"]
          ≠ .broadcast msg :=
  auctionBid_bad_base64_first_index_error (fun _ => none) (fun s => Except.ok s)
    (fun s => Except.ok ⟨s, 1⟩) 5 "cosmos1b" "10uatom" "aGk=,!" "cosmos1b" ⟨"10uatom", 1⟩
    rfl rfl rfl (by decide) ⟨"!", by decide, by decide⟩

/-- C6: the command takes exactly three positional arguments; with the
host steps succeeding and a non-zero timeout it sets the from flag to
the first argument, parses the second as a normalized coin, splits the
third on commas, base64-decodes every token in order, and hands
`MsgAuctionBid(from_address, bid, decoded_bundle)` to broadcast; a
bid-coin parse failure aborts with an error. -/
theorem auctionBid_args_parse_and_broadcast
    (setF : String → Option String) (getC : String → Except String String)
    (parseC : String → Except String Coin) (tH : Nat) :
    (∀ args : List String, args.length ≠ 3 →
      NewAuctionBidTxRunE setF getC parseC tH args = .err .wrongArgCount)
    ∧ (∀ a0 a1 a2 addr c txs, setF a0 = none → getC a0 = .ok addr →
        parseC a1 = .ok c → tH ≠ 0 →
        (stringsSplit a2).mapM base64StdDecodeString = some txs →
        NewAuctionBidTxRunE setF getC parseC tH [a0, a1, a2]
          = .broadcast (NewMsgAuctionBid addr c txs))
    ∧ (∀ a0 a1 a2 addr e, setF a0 = none → getC a0 = .ok addr →
        parseC a1 = .error e →
        NewAuctionBidTxRunE setF getC parseC tH [a0, a1, a2]
          = .err (.parseCoinError e)) := by
  refine ⟨?_, ?_, ?_⟩
  · intro args hlen
    match args with
    | [] => rfl
    | [a] => rfl
    | [a, b] => rfl
    | [a, b, c] => exact absurd rfl hlen
    | a :: b :: c :: d :: rest => rfl
  · intro a0 a1 a2 addr c txs h0 h1 h2 h3 hmap
    have hok := decodeBundledTxs_ok_of_mapM (stringsSplit a2) 0 txs hmap
    simp [NewAuctionBidTxRunE, h0, h1, h2, h3, hok]
  · intro a0 a1 a2 addr e h0 h1 h2
    simp [NewAuctionBidTxRunE, h0, h1, h2]

/-- C6 witness: a successful broadcast of a two-transaction bundle in
order, a four-argument arity error, and a bid-coin parse abort, all on
concrete invocations. -/
theorem auctionBid_args_parse_and_broadcast_witness :
    NewAuctionBidTxRunE (fun _ => none) (fun s => Except.ok s)
      (fun _ => Except.ok ⟨"uatom", 10⟩) 5 ["cosmos1w", "10uatom", "aGk=,aA=="]
      = .broadcast (NewMsgAuctionBid "cosmos1w" ⟨"uatom", 10⟩ [[104, 105], [104]])
    ∧ NewAuctionBidTxRunE (fun _ => none) (fun s => Except.ok s)
      (fun _ => Except.ok ⟨"uatom", 10⟩) 5 ["a", "b", "c", "d"] = .err .wrongArgCount
    ∧ NewAuctionBidTxRunE (fun _ => none) (fun s => Except.ok s)
      (fun _ => Except.error "invalid coin") 5 ["cosmos1w", "zzz", "aGk="]
      = .err (.parseCoinError "invalid coin") := by
  refine ⟨?_, ?_, ?_⟩
  · exact (auctionBid_args_parse_and_broadcast (fun _ => none) (fun s => Except.ok s)
      (fun _ => Except.ok ⟨"uatom", 10⟩) 5).2.1 "cosmos1w" "10uatom" "aGk=,aA=="
      "cosmos1w" ⟨"uatom", 10⟩ [[104, 105], [104]] rfl rfl rfl (by decide) (by decide)
  · exact (auctionBid_args_parse_and_broadcast (fun _ => none) (fun s => Except.ok s)
      (fun _ => Except.ok ⟨"uatom", 10⟩) 5).1 ["a", "b", "c", "d"] (by decide)
  · exact (auctionBid_args_parse_and_broadcast (fun _ => none) (fun s => Except.ok s)
      (fun _ => Except.error "invalid coin") 5).2.2 "cosmos1w" "zzz" "aGk="
      "cosmos1w" "invalid coin" rfl rfl rfl

/-- C9 counterexample: an invocation whose third argument is the empty
string but whose `--timeout-height` is 0 does fail locally, with the
timeout error, and broadcasts nothing. -/
theorem auctionBid_empty_bundle_counterexample :
    NewAuctionBidTxRunE (fun _ => none) (fun s => Except.ok s)
      (fun s => Except.ok ⟨s, 1⟩) 0 ["cosmos1z", "7uatom", ""]
      = .err .timeoutHeightZero
    ∧ ∀ msg, NewAuctionBidTxRunE (fun _ => none) (fun s => Except.ok s)
      (fun s => Except.ok ⟨s, 1⟩) 0 ["cosmos1z", "7uatom", ""]
      ≠ .broadcast msg := by
  refine ⟨rfl, ?_⟩
  intro msg hmsg
  rw [show NewAuctionBidTxRunE (fun _ => none) (fun s => Except.ok s)
      (fun s => Except.ok ⟨s, 1⟩) 0 ["cosmos1z", "7uatom", ""]
      = CmdOutcome.err .timeoutHeightZero from rfl] at hmsg
  exact CmdOutcome.noConfusion hmsg

/-- C9 as amended: when the from flag, client context and bid parse
succeed and the timeout height is non-zero, an invocation whose third
argument is the empty string does not fail: the split yields the single
empty token, base64-decoding the empty string succeeds, and a
`MsgAuctionBid` whose bundle is one zero-length transaction is handed
to broadcast. -/
theorem auctionBid_empty_bundle_broadcasts
    (setF : String → Option String) (getC : String → Except String String)
    (parseC : String → Except String Coin) (tH : Nat) (a0 a1 addr : String) (c : Coin)
    (h0 : setF a0 = none) (h1 : getC a0 = .ok addr) (h2 : parseC a1 = .ok c)
    (h3 : tH ≠ 0) :
    stringsSplit "" = [""]
    ∧ base64StdDecodeString "" = some []
    ∧ NewAuctionBidTxRunE setF getC parseC tH [a0, a1, ""]
        = .broadcast (NewMsgAuctionBid addr c [[]]) := by
  have hdec : decodeBundledTxs 0 (stringsSplit "") = .ok [[]] := rfl
  refine ⟨rfl, rfl, ?_⟩
  simp [NewAuctionBidTxRunE, h0, h1, h2, h3, hdec]

/-- C9 witness: a concrete invocation with an empty third argument and
successful host steps broadcasts the one-element, zero-length bundle. -/
theorem auctionBid_empty_bundle_broadcasts_witness :
    NewAuctionBidTxRunE (fun _ => none) (fun s => Except.ok s)
      (fun _ => Except.ok ⟨"uatom", 7⟩) 9 ["cosmos1q", "7uatom", ""]
      = .broadcast (NewMsgAuctionBid "cosmos1q" ⟨"uatom", 7⟩ [[]]) :=
  (auctionBid_empty_bundle_broadcasts (fun _ => none) (fun s => Except.ok s)
    (fun _ => Except.ok ⟨"uatom", 7⟩) 9 "cosmos1q" "7uatom" "cosmos1q" ⟨"uatom", 7⟩
    rfl rfl rfl (by decide)).2.2

/-- C7: a `Params` value carries exactly the seven declared fields — it
is in bijection with the tuple of its seven projections — and a
`GenesisState` consists solely of a `Params` value. -/
theorem params_genesis_exact_fields :
    Function.Bijective (fun p : Params =>
      (p.maxBundleSize, p.escrowAccountAddress, p.reserveFee, p.minBuyInFee,
        p.minBidIncrement, p.frontRunningProtection, p.proposerFee))
    ∧ Function.Bijective (fun g : GenesisState => g.params) := by
  constructor
  · constructor
    · intro a b h
      cases a; cases b
      simpa using h
    · intro t
      obtain ⟨m, ea, rf, mb, mi, fr, pf⟩ := t
      exact ⟨⟨m, ea, rf, mb, mi, fr, pf⟩, rfl⟩
  · constructor
    · intro a b h
      cases a; cases b
      simpa using h
    · intro p
      exact ⟨⟨p⟩, rfl⟩

/-- C4 witness: a concrete invocation with timeout height 0 exits with
a local error. -/
theorem auctionBid_zero_timeout_no_broadcast_witness :
    ∃ e, NewAuctionBidTxRunE (fun _ => none) (fun s => Except.ok s)
      (fun s => Except.ok ⟨s, 1⟩) 0 ["cosmos1c", "3uatom", "aGk="] = .err e :=
  (auctionBid_zero_timeout_no_broadcast (fun _ => none) (fun s => Except.ok s)
    (fun s => Except.ok ⟨s, 1⟩) ["cosmos1c", "3uatom", "aGk="]).1
